import Mathlib

/-!
Verification of the reles-server incremental extraction pipeline.

This file gives a shallow embedding of the parts of the source relevant to
the spec's claims:
  * the incremental JSON scanner of `src/lib/llm-providers/gemini.ts`
    (`SCALAR_PATTERNS`, `extractCompletedArrayItems`, `processChunk`),
  * output normalization (`parseOutput` of the gemini and composio providers),
  * the extraction orchestrators of `src/routes/video.ts`
    (`GET /:videoId/extract` and `GET /:videoId/extract-stream`),
  * the Firestore result cache (`cacheRecipe` of `src/lib/firestore-cache.ts`).

Strings are embedded as `List Char`; JavaScript regular expressions are
embedded by deterministic matchers proved against the concrete patterns the
source uses (all of them are backtracking-free on their alphabets, so a
leftmost maximal-munch scan realizes the JS semantics).  JavaScript numbers
appearing in the extraction schema are integers in practice and are embedded
as `Int`; `JSON.parse` is embedded by `JSONparse` below, covering the JSON
subset exercised here (integer numeric literals; fractional and exponent
literals, being floating point, are outside the embedding and rejected).
-/

/-- A JSON value as `JSON.parse` produces it (numbers restricted to integers). -/
inductive Json where
  | null : Json
  | bool (b : Bool) : Json
  | num (n : Int) : Json
  | str (s : String) : Json
  | arr (xs : List Json) : Json
  | obj (fields : List (String × Json)) : Json
deriving Repr

/-- Whitespace as matched by the regex class `\s` in the buffers at hand. -/
def isWS (c : Char) : Bool :=
  c = ' ' || c = '\t' || c = '\n' || c = '\r'

/-- Match a literal character sequence at the head of `s`, returning the rest. -/
def dropLit : List Char → List Char → Option (List Char)
  | [], s => some s
  | _ :: _, [] => none
  | c :: cs, d :: s => if c = d then dropLit cs s else none

/-- Generic leftmost-match search: try the anchored matcher `f` at every
position of the input from the left, like `RegExp.exec`. -/
def firstMatch {α : Type} (f : List Char → Option α) : List Char → Option α
  | [] => f []
  | c :: t =>
    match f (c :: t) with
    | some r => some r
    | none => firstMatch f t

/-- The anchored form of the numeric scalar patterns of `SCALAR_PATTERNS`
(`"key"\s*:\s*(\d+)`): the quoted key, optional whitespace, a colon, optional
whitespace, then a maximal nonempty digit run (the capture).  Note the
pattern has no terminator requirement after the digits. -/
def numPatternAt (key : List Char) (s : List Char) : Option (List Char) :=
  match dropLit ('"' :: key ++ ['"']) s with
  | none => none
  | some s1 =>
    match s1.dropWhile isWS with
    | ':' :: s3 =>
      let s4 := s3.dropWhile isWS
      let ds := s4.takeWhile Char.isDigit
      if ds.isEmpty then none else some ds
    | _ => none

/-- The anchored form of the cuisine pattern (`"cuisine"\s*:\s*"([^"]+)"`). -/
def strPatternAt (key : List Char) (s : List Char) : Option (List Char) :=
  match dropLit ('"' :: key ++ ['"']) s with
  | none => none
  | some s1 =>
    match s1.dropWhile isWS with
    | ':' :: s3 =>
      match s3.dropWhile isWS with
      | '"' :: s4 =>
        let cs := s4.takeWhile (fun c => c != '"')
        if cs.isEmpty then none
        else
          match s4.dropWhile (fun c => c != '"') with
          | '"' :: _ => some cs
          | _ => none
      | _ => none
    | _ => none

/-- Digit run to the number `Number(m[1])` yields on it. -/
def digitsToNat (ds : List Char) : Nat :=
  ds.foldl (fun n c => 10 * n + (c.toNat - '0'.toNat)) 0

/-- The shapes of entries of `SCALAR_PATTERNS`. -/
inductive ScalarKind where
  | numKind : ScalarKind
  | strKind : ScalarKind
deriving Repr, DecidableEq

structure ScalarPattern where
  key : String
  kind : ScalarKind
deriving Repr, DecidableEq

/-- The `SCALAR_PATTERNS` table of `gemini.ts` (lines 59-70). -/
def SCALAR_PATTERNS : List ScalarPattern :=
  [⟨"servings", .numKind⟩, ⟨"prep_time_minutes", .numKind⟩,
   ⟨"cook_time_minutes", .numKind⟩, ⟨"calories_kcal", .numKind⟩,
   ⟨"difficulty", .numKind⟩, ⟨"cuisine", .strKind⟩]

/-- One `pattern.exec(buffer)` plus the pattern's `parse` of the capture. -/
def execScalar (p : ScalarPattern) (buffer : List Char) : Option Json :=
  match p.kind with
  | .numKind =>
    (firstMatch (numPatternAt p.key.data) buffer).map
      (fun ds => Json.num (digitsToNat ds))
  | .strKind =>
    (firstMatch (strPatternAt p.key.data) buffer).map
      (fun cs => Json.str (String.mk cs))

/-- Value of a hexadecimal digit, for JSON `\uXXXX` escapes. -/
def hexVal (c : Char) : Option Nat :=
  if '0' ≤ c ∧ c ≤ '9' then some (c.toNat - '0'.toNat)
  else if 'a' ≤ c ∧ c ≤ 'f' then some (c.toNat - 'a'.toNat + 10)
  else if 'A' ≤ c ∧ c ≤ 'F' then some (c.toNat - 'A'.toNat + 10)
  else none

/-- Body of a JSON string literal after its opening quote: decodes escapes,
stops at the closing quote, rejects unescaped control characters, returns
the decoded content and the rest of the input after the closing quote. -/
def parseJsonStringAux : List Char → List Char → Option (List Char × List Char)
  | _, [] => none
  | acc, '"' :: rest => some (acc.reverse, rest)
  | acc, '\\' :: rest =>
    match rest with
    | [] => none
    | e :: rest' =>
      if e = '"' then parseJsonStringAux ('"' :: acc) rest'
      else if e = '\\' then parseJsonStringAux ('\\' :: acc) rest'
      else if e = '/' then parseJsonStringAux ('/' :: acc) rest'
      else if e = 'n' then parseJsonStringAux ('\n' :: acc) rest'
      else if e = 't' then parseJsonStringAux ('\t' :: acc) rest'
      else if e = 'r' then parseJsonStringAux ('\r' :: acc) rest'
      else if e = 'b' then parseJsonStringAux (Char.ofNat 8 :: acc) rest'
      else if e = 'f' then parseJsonStringAux (Char.ofNat 12 :: acc) rest'
      else if e = 'u' then
        match rest' with
        | h1 :: h2 :: h3 :: h4 :: rest2 =>
          match hexVal h1, hexVal h2, hexVal h3, hexVal h4 with
          | some a, some b, some c, some d =>
            parseJsonStringAux (Char.ofNat (((a * 16 + b) * 16 + c) * 16 + d) :: acc) rest2
          | _, _, _, _ => none
        | _ => none
      else none
  | acc, c :: rest =>
    if c.toNat < 32 then none else parseJsonStringAux (c :: acc) rest

/-- A JSON integer literal: a maximal digit run with no leading zero, not
followed by a fraction or exponent marker (floating-point literals are
outside this embedding and are rejected). -/
def parseJsonNat (s : List Char) : Option (Nat × List Char) :=
  let ds := s.takeWhile Char.isDigit
  let r := s.dropWhile Char.isDigit
  if ds.isEmpty then none
  else if 1 < ds.length ∧ ds.head? = some '0' then none
  else
    match r with
    | '.' :: _ => none
    | 'e' :: _ => none
    | 'E' :: _ => none
    | _ => some (digitsToNat ds, r)

mutual
/-- A JSON value (fuel-indexed recursive descent; the fuel passed by
`JSONparse` always suffices for its input). -/
def jsonParseVal : Nat → List Char → Option (Json × List Char)
  | 0, _ => none
  | fuel + 1, s =>
    match s.dropWhile isWS with
    | [] => none
    | '"' :: rest =>
      match parseJsonStringAux [] rest with
      | some (cs, r) => some (Json.str (String.mk cs), r)
      | none => none
    | '[' :: rest =>
      match rest.dropWhile isWS with
      | ']' :: r => some (Json.arr [], r)
      | _ => jsonParseArrItems fuel rest []
    | '{' :: rest =>
      match rest.dropWhile isWS with
      | '}' :: r => some (Json.obj [], r)
      | _ => jsonParseObjItems fuel rest []
    | 't' :: rest => (dropLit ['r', 'u', 'e'] rest).map (fun r => (Json.bool true, r))
    | 'f' :: rest => (dropLit ['a', 'l', 's', 'e'] rest).map (fun r => (Json.bool false, r))
    | 'n' :: rest => (dropLit ['u', 'l', 'l'] rest).map (fun r => (Json.null, r))
    | '-' :: rest =>
      match parseJsonNat rest with
      | some (n, r) => some (Json.num (-(n : Int)), r)
      | none => none
    | c :: rest =>
      if c.isDigit then
        match parseJsonNat (c :: rest) with
        | some (n, r) => some (Json.num (n : Int), r)
        | none => none
      else none

/-- Elements of a JSON array after its opening bracket. -/
def jsonParseArrItems : Nat → List Char → List Json → Option (Json × List Char)
  | 0, _, _ => none
  | fuel + 1, s, acc =>
    match jsonParseVal fuel s with
    | none => none
    | some (v, r) =>
      match r.dropWhile isWS with
      | ',' :: r2 => jsonParseArrItems fuel r2 (v :: acc)
      | ']' :: r2 => some (Json.arr (acc.reverse ++ [v]), r2)
      | _ => none

/-- Members of a JSON object after its opening brace. -/
def jsonParseObjItems : Nat → List Char → List (String × Json) → Option (Json × List Char)
  | 0, _, _ => none
  | fuel + 1, s, acc =>
    match s.dropWhile isWS with
    | '"' :: rest =>
      match parseJsonStringAux [] rest with
      | none => none
      | some (kcs, r) =>
        match r.dropWhile isWS with
        | ':' :: r2 =>
          match jsonParseVal fuel r2 with
          | none => none
          | some (v, r3) =>
            match r3.dropWhile isWS with
            | ',' :: r4 => jsonParseObjItems fuel r4 ((String.mk kcs, v) :: acc)
            | '}' :: r4 => some (Json.obj (acc.reverse ++ [(String.mk kcs, v)]), r4)
            | _ => none
        | _ => none
    | _ => none
end

/-- The embedding of `JSON.parse`: one value, then nothing but whitespace. -/
def JSONparse (s : String) : Option Json :=
  match jsonParseVal (2 * s.length + 2) s.data with
  | some (v, r) => if (r.dropWhile isWS).isEmpty then some v else none
  | none => none

-- ── Incremental array-item extraction (`extractCompletedArrayItems`) ──

/-- The anchored form of the key pattern `"arrayKey"\s*:\s*\[` of
`extractCompletedArrayItems`: on success returns the rest of the buffer just
after the opening bracket. -/
def arrKeyPatternAt (arrayKey : List Char) (s : List Char) : Option (List Char) :=
  match dropLit ('"' :: arrayKey ++ ['"']) s with
  | none => none
  | some s1 =>
    match s1.dropWhile isWS with
    | ':' :: s3 =>
      match s3.dropWhile isWS with
      | '[' :: s5 => some s5
      | _ => none
    | _ => none

/-- The character-by-character walk of `extractCompletedArrayItems`
(gemini.ts lines 90-129).  `buffer` is the whole buffer, `rest` the suffix
from position `i` (the caller maintains `rest = buffer.drop i`), `depth` the
brace depth (an Int, as the JS counter may go negative), `inString` and
`escaped` the string/escape flags, `itemStart` the start index of the item
in progress (`-1` is `none`), `items` the completed items so far. -/
def scanArrayLoop (buffer : List Char) : List Char → Nat → Int → Bool → Bool →
    Option Nat → List Json → List Json
  | [], _, _, _, _, _, items => items
  | ch :: rest', i, depth, inString, escaped, itemStart, items =>
    if escaped then
      scanArrayLoop buffer rest' (i + 1) depth inString false itemStart items
    else if ch = '\\' then
      scanArrayLoop buffer rest' (i + 1) depth inString true itemStart items
    else if ch = '"' then
      let inString' := !inString
      let itemStart' :=
        if inString' ∧ depth = 0 ∧ itemStart = none then some i else itemStart
      scanArrayLoop buffer rest' (i + 1) depth inString' escaped itemStart' items
    else if inString then
      scanArrayLoop buffer rest' (i + 1) depth inString escaped itemStart items
    else if ch = '{' then
      let itemStart' := if depth = 0 then some i else itemStart
      scanArrayLoop buffer rest' (i + 1) (depth + 1) inString escaped itemStart' items
    else if ch = '}' then
      let depth' := depth - 1
      match itemStart with
      | some st =>
        if depth' = 0 then
          let itemStr := String.mk ((buffer.drop st).take (i + 1 - st))
          match JSONparse itemStr with
          | some v =>
            scanArrayLoop buffer rest' (i + 1) depth' inString escaped none (items ++ [v])
          | none =>
            scanArrayLoop buffer rest' (i + 1) depth' inString escaped none items
        else
          scanArrayLoop buffer rest' (i + 1) depth' inString escaped itemStart items
      | none =>
        scanArrayLoop buffer rest' (i + 1) depth' inString escaped itemStart items
    else if ch = ']' ∧ depth = 0 then
      items
    else
      scanArrayLoop buffer rest' (i + 1) depth inString escaped itemStart items

/-- Content of the fallback string-item regex up to its closing quote:
`((?:[^"\\]|\\.)*)"`, capture kept raw (escapes not decoded).  The JS dot
does not match line terminators, so a backslash at the end of input or
before a newline fails the whole attempt (no backtracking can rescue it,
since `[^"\\]` cannot consume a backslash either). -/
def strBodyAux : List Char → List Char → Option (List Char × List Char)
  | _, [] => none
  | acc, '"' :: rest => some (acc.reverse, rest)
  | acc, '\\' :: rest =>
    match rest with
    | [] => none
    | c :: rest' =>
      if c = '\n' ∨ c = '\r' then none
      else strBodyAux (c :: '\\' :: acc) rest'
  | acc, c :: rest => strBodyAux (c :: acc) rest

/-- One anchored attempt of `\s*"((?:[^"\\]|\\.)*)"\s*(?=,|])` (everything
after the `(?:^|,)` prefix): returns the raw capture and the rest of the
input at the lookahead character (the lookahead consumes nothing). -/
def strItemCore (s : List Char) : Option (List Char × List Char) :=
  match s.dropWhile isWS with
  | '"' :: s2 =>
    match strBodyAux [] s2 with
    | some (cap, s3) =>
      match s3.dropWhile isWS with
      | ',' :: r => some (cap, ',' :: r)
      | ']' :: r => some (cap, ']' :: r)
      | _ => none
    | none => none
  | _ => none

/-- One anchored attempt of the whole fallback pattern
`(?:^|,)\s*"((?:[^"\\]|\\.)*)"\s*(?=,|])` at a position: the `^` alternative
applies only at the very start of the subject (`atStart`), and on its
failure the engine backtracks into the `,` alternative. -/
def strItemAt (atStart : Bool) (s : List Char) : Option (List Char × List Char) :=
  match (if atStart then strItemCore s else none) with
  | some r => some r
  | none =>
    match s with
    | ',' :: s1 => strItemCore s1
    | _ => none

/-- The global `exec` loop of the fallback pattern: on a match continue from
the end of the match (`lastIndex`), on a failure slide one character right.
Every match consumes at least its two quotes, so fuel `length + 1` is never
exhausted. -/
def stringFallbackAux : Nat → Bool → List Char → List (List Char)
  | 0, _, _ => []
  | fuel + 1, atStart, s =>
    match strItemAt atStart s with
    | some (cap, rest) => cap :: stringFallbackAux fuel false rest
    | none =>
      match s with
      | [] => []
      | _ :: t => stringFallbackAux fuel false t

/-- All raw captures of the fallback string-item regex over `arrayContent`. -/
def stringFallbackItems (s : List Char) : List (List Char) :=
  stringFallbackAux (s.length + 1) true s

/-- The replacement `.replace(/\\"/g, '"')`: global, left to right,
non-overlapping. -/
def replaceEscQuote : List Char → List Char
  | [] => []
  | '\\' :: '"' :: rest => '"' :: replaceEscQuote rest
  | c :: rest => c :: replaceEscQuote rest

/-- The replacement `.replace(/\\n/g, "\n")`. -/
def replaceEscN : List Char → List Char
  | [] => []
  | '\\' :: 'n' :: rest => '\n' :: replaceEscN rest
  | c :: rest => c :: replaceEscN rest

/-- The function `extractCompletedArrayItems(buffer, arrayKey)` of gemini.ts
(lines 72-142): find the array start, walk the buffer for completed
object-shaped items, and if none were found fall back to the string-item
regex over the rest of the buffer from the array start. -/
def extractCompletedArrayItems (buffer : List Char) (arrayKey : String) : List Json :=
  match firstMatch (arrKeyPatternAt arrayKey.data) buffer with
  | none => []
  | some rest =>
    let arrayStart := buffer.length - rest.length
    let items := scanArrayLoop buffer rest arrayStart 0 false false none []
    if items.isEmpty then
      (stringFallbackItems (buffer.drop arrayStart)).map
        (fun cap => Json.str (String.mk (replaceEscN (replaceEscQuote cap))))
    else items

-- ── `processChunk` and its state ──────────────────────────────

/-- The `IncrementalState` of gemini.ts (lines 53-57); the `Set<string>` is
embedded as a list consulted through `contains`. -/
structure IncrementalState where
  emittedScalars : List String
  emittedIngredientCount : Nat
  emittedInstructionCount : Nat
deriving Repr

/-- The fresh state built at the start of a streaming extraction. -/
def initialState : IncrementalState := ⟨[], 0, 0⟩

/-- Events handed to the `StreamCallback`.  The JS payloads are
`{[key]: value}` for metadata, the bare item for ingredients and
`{index, text}` for instructions; the `index` recorded on an ingredient
event is the emitting loop's position `i`, made explicit here so that the
(array, index) bookkeeping of the spec can be stated. -/
inductive StreamEvent where
  | metadata (key : String) (value : Json) : StreamEvent
  | ingredient (index : Nat) (item : Json) : StreamEvent
  | instruction (index : Nat) (text : Json) : StreamEvent
  | completeEv (output : Json) : StreamEvent
deriving Repr

/-- Membership in the embedded `Set<string>` (`state.emittedScalars.has(key)`). -/
def hasKey (l : List String) (k : String) : Bool :=
  match l with
  | [] => false
  | x :: t => x == k || hasKey t k

/-- The scalar-field loop of `processChunk` (gemini.ts lines 149-157):
fields already in `emittedScalars` are skipped, a match records the key and
emits one metadata event. -/
def processScalars : List ScalarPattern → List Char → IncrementalState →
    IncrementalState × List StreamEvent
  | [], _, st => (st, [])
  | p :: ps, buffer, st =>
    if hasKey st.emittedScalars p.key then processScalars ps buffer st
    else
      match execScalar p buffer with
      | some v =>
        let st' := { st with emittedScalars := p.key :: st.emittedScalars }
        let r := processScalars ps buffer st'
        (r.1, StreamEvent.metadata p.key v :: r.2)
      | none => processScalars ps buffer st

/-- Events of the array-emission loop `for (let i = count; i < items.length;
i++)`: one event per index from `count` up to `items.length`. -/
def emitNew (mk : Nat → Json → StreamEvent) (count : Nat) (items : List Json) :
    List StreamEvent :=
  (List.range' count (items.length - count)).map
    (fun i => mk i (items.getD i Json.null))

/-- The function `processChunk(buffer, state, onEvent)` of gemini.ts (lines
144-175), with the mutated state and the emitted events returned in order:
scalar fields first, then new ingredients, then new instructions. -/
def processChunk (buffer : String) (st : IncrementalState) :
    IncrementalState × List StreamEvent :=
  let r1 := processScalars SCALAR_PATTERNS buffer.data st
  let ingredients := extractCompletedArrayItems buffer.data "ingredients"
  let evs2 := emitNew StreamEvent.ingredient r1.1.emittedIngredientCount ingredients
  let st2 := { r1.1 with
    emittedIngredientCount := max r1.1.emittedIngredientCount ingredients.length }
  let instructions := extractCompletedArrayItems buffer.data "instructions"
  let evs3 := emitNew StreamEvent.instruction st2.emittedInstructionCount instructions
  let st3 := { st2 with
    emittedInstructionCount := max st2.emittedInstructionCount instructions.length }
  (st3, r1.2 ++ evs2 ++ evs3)

/-- A sequence of `processChunk` invocations threading one `ScanState`, as
the stream driver of `extractRecipeFromTranscriptStream` performs after each
fragment arrival; returns the final state and all events in emission order. -/
def runScanner : List String → IncrementalState → IncrementalState × List StreamEvent
  | [], st => (st, [])
  | b :: bs, st =>
    let r := processChunk b st
    let r2 := runScanner bs r.1
    (r2.1, r.2 ++ r2.2)

-- ── Output normalization (`parseOutput` of both providers) ─────

/-- Lookup of a property on a parsed JSON object record; with duplicate keys
the later member wins, as in `JSON.parse`. -/
def lookupJ (r : List (String × Json)) (k : String) : Option Json :=
  ((r.filter (fun p => p.1 == k)).getLast?).map (fun p => p.2)

/-- The check `Array.isArray(x)` with the array's elements on success. -/
def Json.asArr : Json → Option (List Json)
  | .arr xs => some xs
  | _ => none

/-- The check `typeof x === "number"` (embedded integers). -/
def Json.asNumber : Json → Option Int
  | .num n => some n
  | _ => none

/-- The check `typeof x === "string"`. -/
def Json.asString : Json → Option String
  | .str s => some s
  | _ => none

/-- The `ExtractionOutput` interface of `lib/llm-providers/types.ts`;
`highlights` is optional there (`highlights?: string[]`), so it is an
`Option` here — the composio provider never sets it. -/
structure ExtractionOutput where
  ingredients : List Json
  instructions : List Json
  servings : Int
  prep_time_minutes : Int
  cook_time_minutes : Int
  allergens : List Json
  calories_kcal : Int
  difficulty : Int
  cuisine : String
  accompanying_recipes : List Json
  highlights : Option (List Json)
deriving Repr

/-- The normalization step of `parseOutput` in gemini.ts (lines 33-48),
applied to the already-parsed document record. -/
def geminiParseOutput (parsed : List (String × Json)) : ExtractionOutput where
  ingredients := ((lookupJ parsed "ingredients").bind Json.asArr).getD []
  instructions := ((lookupJ parsed "instructions").bind Json.asArr).getD []
  servings := ((lookupJ parsed "servings").bind Json.asNumber).getD 0
  prep_time_minutes := ((lookupJ parsed "prep_time_minutes").bind Json.asNumber).getD 0
  cook_time_minutes := ((lookupJ parsed "cook_time_minutes").bind Json.asNumber).getD 0
  allergens := ((lookupJ parsed "allergens").bind Json.asArr).getD []
  calories_kcal := ((lookupJ parsed "calories_kcal").bind Json.asNumber).getD 0
  difficulty := ((lookupJ parsed "difficulty").bind Json.asNumber).getD 1
  cuisine := ((lookupJ parsed "cuisine").bind Json.asString).getD "OTHER"
  accompanying_recipes := ((lookupJ parsed "accompanying_recipes").bind Json.asArr).getD []
  highlights := some (((lookupJ parsed "highlights").bind Json.asArr).getD [])

/-- The normalization step of `parseOutput` in composio.ts (lines 7-21),
applied to the already-parsed stdout record: identical to the gemini one
except that no `highlights` member is produced at all. -/
def composioParseOutput (output : List (String × Json)) : ExtractionOutput where
  ingredients := ((lookupJ output "ingredients").bind Json.asArr).getD []
  instructions := ((lookupJ output "instructions").bind Json.asArr).getD []
  servings := ((lookupJ output "servings").bind Json.asNumber).getD 0
  prep_time_minutes := ((lookupJ output "prep_time_minutes").bind Json.asNumber).getD 0
  cook_time_minutes := ((lookupJ output "cook_time_minutes").bind Json.asNumber).getD 0
  allergens := ((lookupJ output "allergens").bind Json.asArr).getD []
  calories_kcal := ((lookupJ output "calories_kcal").bind Json.asNumber).getD 0
  difficulty := ((lookupJ output "difficulty").bind Json.asNumber).getD 1
  cuisine := ((lookupJ output "cuisine").bind Json.asString).getD "OTHER"
  accompanying_recipes := ((lookupJ output "accompanying_recipes").bind Json.asArr).getD []
  highlights := none

-- ── The Firestore result cache (`firestore-cache.ts`) ─────────

/-- A document of the `recipe_cache` collection. -/
structure CachedRecipe where
  videoId : String
  extractedJson : Json
  createdAt : String
  timesAccessed : Nat
  timesMade : Nat
  lastAccessedAt : String
deriving Repr

/-- The function `cacheRecipe(videoId, json)` (firestore-cache.ts lines
28-39): a `doc(videoId).set(...)` is a full-document overwrite, writing
`timesAccessed: 1`, `timesMade: 0` and fresh timestamps unconditionally.
`now` stands for `new Date().toISOString()`. -/
def cacheRecipe (videoId : String) (json : Json) (now : String)
    (cache : String → Option CachedRecipe) : String → Option CachedRecipe :=
  fun k =>
    if k = videoId then
      some { videoId := videoId, extractedJson := json, createdAt := now,
             timesAccessed := 1, timesMade := 0, lastAccessedAt := now }
    else cache k

-- ── The extraction orchestrators (`routes/video.ts`) ──────────

/-- JavaScript `pattern.startsWith` on character lists. -/
def startsWithList : List Char → List Char → Bool
  | [], _ => true
  | _ :: _, [] => false
  | c :: cs, d :: ds => c = d && startsWithList cs ds

/-- JavaScript `s.includes(pat)` on character lists. -/
def includesList (pat : List Char) : List Char → Bool
  | [] => startsWithList pat []
  | c :: t => startsWithList pat (c :: t) || includesList pat t

/-- JavaScript `s.includes(pat)`. -/
def includes (s pat : String) : Bool := includesList pat.data s.data

/-- Video details as returned by `getVideoDetails`. -/
structure VideoDetails where
  title : String
  channelTitle : String
deriving Repr

/-- The assembled recipe result of `buildResult` (video.ts lines 10-30). -/
structure RecipeResult where
  title : String
  videoTitle : String
  channelTitle : String
  ingredients : List Json
  instructions : List Json
  servings : Int
  prepTimeMinutes : Int
  cookTimeMinutes : Int
  allergens : List Json
  caloriesKcal : Int
  difficulty : Int
  cuisine : String
  accompanyingRecipes : List Json
  highlights : List Json
deriving Repr

/-- The function `buildResult(details, output)` of video.ts: `details.title
|| "Untitled Recipe"` falls back on the empty string, and the possibly
absent `highlights` is patched by `output.highlights ?? []`. -/
def buildResult (details : VideoDetails) (output : ExtractionOutput) : RecipeResult where
  title := if details.title = "" then "Untitled Recipe" else details.title
  videoTitle := details.title
  channelTitle := details.channelTitle
  ingredients := output.ingredients
  instructions := output.instructions
  servings := output.servings
  prepTimeMinutes := output.prep_time_minutes
  cookTimeMinutes := output.cook_time_minutes
  allergens := output.allergens
  caloriesKcal := output.calories_kcal
  difficulty := output.difficulty
  cuisine := output.cuisine
  accompanyingRecipes := output.accompanying_recipes
  highlights := output.highlights.getD []

/-- Outcomes of the external collaborators, fixed per request: the embedding
makes each route a pure function of what its awaited calls would return.
`streamEvents` are the events the streaming extractor pushes through its
callback before resolving; `hasStream` is whether the configured extractor
exposes `extractRecipeFromTranscriptStream`; `cacheWriteResult` is the
settlement of the fire-and-forget `cacheRecipe` promise. -/
structure ExtractEnv where
  cached : Option Json
  detailsResult : Except String VideoDetails
  transcriptResult : Except String String
  extractionResult : Except String ExtractionOutput
  streamEvents : List StreamEvent
  hasStream : Bool
  cacheWriteResult : Except String Unit

/-- Response bodies of the non-streaming route. -/
inductive ExtractBody where
  | cachedBody (payload : Json) : ExtractBody
  | resultBody (r : RecipeResult) : ExtractBody
  | detailBody (detail : String) : ExtractBody
deriving Repr

/-- An HTTP response: status and body. -/
structure RouteResponse where
  status : Nat
  body : ExtractBody
deriving Repr

/-- What one run of the `GET /:videoId/extract` handler did: the response
sent, which collaborators were invoked, the payload handed to `cacheRecipe`
(if any), and the error-log lines. -/
structure ExtractOutcome where
  response : RouteResponse
  calledDetails : Bool
  calledTranscript : Bool
  calledExtractor : Bool
  cacheWrite : Option RecipeResult
  logs : List String
deriving Repr

/-- The log line of the `.catch` on the fire-and-forget cache write. -/
def cacheWriteLogs (w : Except String Unit) : List String :=
  match w with
  | .error e => ["Failed to cache recipe: " ++ e]
  | .ok _ => []

/-- The `GET /:videoId/extract` handler of video.ts (lines 205-259): cache
check, details, transcript (with message-based classification of failures),
extraction, the empty-ingredients guard, then assembly, a non-awaited cache
write and the JSON response. -/
def extractRoute (env : ExtractEnv) : ExtractOutcome :=
  match env.cached with
  | some c =>
    { response := ⟨200, .cachedBody c⟩, calledDetails := false,
      calledTranscript := false, calledExtractor := false,
      cacheWrite := none, logs := [] }
  | none =>
    match env.detailsResult with
    | .error m =>
      { response := ⟨500, .detailBody m⟩, calledDetails := true,
        calledTranscript := false, calledExtractor := false,
        cacheWrite := none, logs := [] }
    | .ok details =>
      match env.transcriptResult with
      | .error msg =>
        if includes msg "No transcript" then
          { response := ⟨404, .detailBody "This video does not have captions available."⟩,
            calledDetails := true, calledTranscript := true,
            calledExtractor := false, cacheWrite := none, logs := [] }
        else if includes msg "Rate limit" then
          { response := ⟨429, .detailBody "Rate limit exceeded. Please try again later."⟩,
            calledDetails := true, calledTranscript := true,
            calledExtractor := false, cacheWrite := none, logs := [] }
        else
          { response := ⟨500, .detailBody ("Failed to fetch transcript: " ++ msg)⟩,
            calledDetails := true, calledTranscript := true,
            calledExtractor := false, cacheWrite := none, logs := [] }
      | .ok _ =>
        match env.extractionResult with
        | .error m =>
          { response := ⟨500, .detailBody m⟩, calledDetails := true,
            calledTranscript := true, calledExtractor := true,
            cacheWrite := none, logs := [] }
        | .ok output =>
          if output.ingredients.length = 0 then
            { response := ⟨400, .detailBody "No ingredients could be extracted from this video."⟩,
              calledDetails := true, calledTranscript := true,
              calledExtractor := true, cacheWrite := none, logs := [] }
          else
            let result := buildResult details output
            { response := ⟨200, .resultBody result⟩, calledDetails := true,
              calledTranscript := true, calledExtractor := true,
              cacheWrite := some result, logs := cacheWriteLogs env.cacheWriteResult }

/-- Frames written to the SSE channel by `GET /:videoId/extract-stream`. -/
inductive SseEvent where
  | phase (name : String) : SseEvent
  | fromScanner (ev : StreamEvent) : SseEvent
  | errorEvent (message : String) : SseEvent
  | completeCached (payload : Json) : SseEvent
  | completeResult (r : RecipeResult) : SseEvent
deriving Repr

/-- Whether a scanner event is the extractor's own terminal `complete`
event, which the route suppresses (it sends its own). -/
def StreamEvent.isCompleteEv : StreamEvent → Bool
  | .completeEv _ => true
  | _ => false

/-- The events the stream route forwards verbatim from the extractor's
callback: everything except `complete`. -/
def forwardedEvents (evs : List StreamEvent) : List SseEvent :=
  (evs.filter (fun e => !e.isCompleteEv)).map SseEvent.fromScanner

/-- What one run of the `GET /:videoId/extract-stream` handler did. -/
structure StreamOutcome where
  events : List SseEvent
  calledDetails : Bool
  calledTranscript : Bool
  calledExtractor : Bool
  cacheWrite : Option RecipeResult
  logs : List String
deriving Repr

/-- The `GET /:videoId/extract-stream` handler of video.ts (lines 112-202):
cache check (a hit sends only `complete`), `phase: fetching`, the details
promise started, transcript fetch with message-based error classification,
`phase: extracting`, then either the streaming extractor (its non-`complete`
events forwarded) or the batch fallback; on success the details are awaited,
the result assembled, a non-awaited cache write issued and `complete` sent.
Note there is no empty-ingredients guard on this path. -/
def extractStreamRoute (env : ExtractEnv) : StreamOutcome :=
  match env.cached with
  | some c =>
    { events := [.completeCached c], calledDetails := false,
      calledTranscript := false, calledExtractor := false,
      cacheWrite := none, logs := [] }
  | none =>
    match env.transcriptResult with
    | .error msg =>
      let m :=
        if includes msg "No transcript" then
          "This video does not have captions available."
        else if includes msg "Rate limit" then
          "Rate limit exceeded. Please try again later."
        else "Failed to fetch transcript: " ++ msg
      { events := [.phase "fetching", .errorEvent m], calledDetails := true,
        calledTranscript := true, calledExtractor := false,
        cacheWrite := none, logs := [] }
    | .ok _ =>
      if env.hasStream then
        match env.extractionResult with
        | .error m =>
          { events := [.phase "fetching", .phase "extracting"] ++
              forwardedEvents env.streamEvents ++ [.errorEvent m],
            calledDetails := true, calledTranscript := true,
            calledExtractor := true, cacheWrite := none, logs := [] }
        | .ok output =>
          match env.detailsResult with
          | .error m =>
            { events := [.phase "fetching", .phase "extracting"] ++
                forwardedEvents env.streamEvents ++ [.errorEvent m],
              calledDetails := true, calledTranscript := true,
              calledExtractor := true, cacheWrite := none, logs := [] }
          | .ok details =>
            let result := buildResult details output
            { events := [.phase "fetching", .phase "extracting"] ++
                forwardedEvents env.streamEvents ++ [.completeResult result],
              calledDetails := true, calledTranscript := true,
              calledExtractor := true, cacheWrite := some result,
              logs := cacheWriteLogs env.cacheWriteResult }
      else
        match env.extractionResult with
        | .error m =>
          { events := [.phase "fetching", .phase "extracting", .errorEvent m],
            calledDetails := true, calledTranscript := true,
            calledExtractor := true, cacheWrite := none, logs := [] }
        | .ok output =>
          match env.detailsResult with
          | .error m =>
            { events := [.phase "fetching", .phase "extracting", .errorEvent m],
              calledDetails := true, calledTranscript := true,
              calledExtractor := true, cacheWrite := none, logs := [] }
          | .ok details =>
            let result := buildResult details output
            { events := [.phase "fetching", .phase "extracting", .completeResult result],
              calledDetails := true, calledTranscript := true,
              calledExtractor := true, cacheWrite := some result,
              logs := cacheWriteLogs env.cacheWriteResult }

-- ── Sample fixtures used by concrete witnesses and counterexamples ──

/-- A sample pre-existing cache document with accumulated counters. -/
def oldEntry : CachedRecipe := ⟨"v1", Json.null, "t0", 7, 3, "t1"⟩

/-- A sample cache holding `oldEntry` under `"v1"`. -/
def sampleCache : String → Option CachedRecipe :=
  fun k => if k = "v1" then some oldEntry else none

/-- Sample video details. -/
def sampleDetails : VideoDetails := ⟨"T", "C"⟩

/-- A sample normalized output with one ingredient. -/
def sampleOutput : ExtractionOutput :=
  ⟨[Json.str "i"], [], 2, 0, 0, [], 0, 1, "OTHER", [], some []⟩

/-- A sample normalized output whose `ingredients` sequence is empty. -/
def emptyOutput : ExtractionOutput :=
  ⟨[], [], 2, 0, 0, [], 0, 1, "OTHER", [], some []⟩

-- ── C10 ───────────────────────────────────────────────────────

/-- C10: a `cacheRecipe` write to a video id that already has a cache entry
is a full-document overwrite: the stored entry afterwards has
`timesAccessed = 1`, `timesMade = 0` and fresh timestamps, whatever counters
the old entry had accumulated. -/
theorem c10_cache_overwrite_resets_counters
    (cache : String → Option CachedRecipe) (videoId : String)
    (old : CachedRecipe) (json : Json) (now : String)
    (hold : cache videoId = some old) :
    cacheRecipe videoId json now cache videoId =
      some { videoId := videoId, extractedJson := json, createdAt := now,
             timesAccessed := 1, timesMade := 0, lastAccessedAt := now } := by
  simp [cacheRecipe]

/-- Witness for C10 at a concrete cache whose entry has `timesAccessed = 7`
and `timesMade = 3`: the overwrite discards both. -/
theorem c10_cache_overwrite_resets_counters_witness :
    cacheRecipe "v1" (Json.str "r") "t2" sampleCache "v1" =
      some ⟨"v1", Json.str "r", "t2", 1, 0, "t2"⟩ :=
  c10_cache_overwrite_resets_counters sampleCache "v1" oldEntry (Json.str "r") "t2"
    (by simp [sampleCache])

-- ── C6 ────────────────────────────────────────────────────────

/-- C6: on a cache hit, both extraction endpoints return (or emit as the
only, terminal `complete` event) the cached payload and invoke neither the
metadata source, the transcript source, the generation backend, nor a cache
write. -/
theorem c6_cache_hit_short_circuit (env : ExtractEnv) (c : Json)
    (h : env.cached = some c) :
    extractRoute env =
      { response := ⟨200, .cachedBody c⟩, calledDetails := false,
        calledTranscript := false, calledExtractor := false,
        cacheWrite := none, logs := [] }
    ∧ extractStreamRoute env =
      { events := [.completeCached c], calledDetails := false,
        calledTranscript := false, calledExtractor := false,
        cacheWrite := none, logs := [] } := by
  constructor <;> simp [extractRoute, extractStreamRoute, h]

/-- A sample environment with a cache hit. -/
def envCacheHit : ExtractEnv :=
  ⟨some (Json.str "cached"), .ok sampleDetails, .ok "t", .ok sampleOutput, [], true, .ok ()⟩

/-- Witness for C6 at a concrete environment. -/
theorem c6_cache_hit_short_circuit_witness :
    extractRoute envCacheHit =
      { response := ⟨200, .cachedBody (Json.str "cached")⟩, calledDetails := false,
        calledTranscript := false, calledExtractor := false,
        cacheWrite := none, logs := [] }
    ∧ extractStreamRoute envCacheHit =
      { events := [.completeCached (Json.str "cached")], calledDetails := false,
        calledTranscript := false, calledExtractor := false,
        cacheWrite := none, logs := [] } :=
  c6_cache_hit_short_circuit envCacheHit (Json.str "cached") rfl

-- ── C8 ────────────────────────────────────────────────────────

/-- C8 counterexample: the composio provider's normalization never sets the
declared (optional) `highlights` field, even when the raw document carries a
well-shaped one, so the normalized output does have an absent field; the
gemini provider defines it on the same document. -/
theorem c8_composio_highlights_absent_cex :
    (composioParseOutput [("highlights", Json.arr [Json.str "x"])]).highlights = none
    ∧ (geminiParseOutput [("highlights", Json.arr [Json.str "x"])]).highlights =
        some [Json.str "x"] := by
  exact ⟨rfl, rfl⟩

/-- C8 amended: for every raw backend document, each declared field other
than `highlights` is defined by both providers and is coerced to its default
when absent or of the wrong shape (arrays to `[]`, numbers to `0`,
`difficulty` to `1`, `cuisine` to `"OTHER"`); the gemini provider also
always defines `highlights` (defaulting it to `[]`), while the composio
provider leaves `highlights` absent on every document. -/
theorem c8_normalization_defaults :
    (∀ r, (lookupJ r "ingredients").bind Json.asArr = none →
      (geminiParseOutput r).ingredients = [] ∧ (composioParseOutput r).ingredients = [])
    ∧ (∀ r, (lookupJ r "instructions").bind Json.asArr = none →
      (geminiParseOutput r).instructions = [] ∧ (composioParseOutput r).instructions = [])
    ∧ (∀ r, (lookupJ r "servings").bind Json.asNumber = none →
      (geminiParseOutput r).servings = 0 ∧ (composioParseOutput r).servings = 0)
    ∧ (∀ r, (lookupJ r "prep_time_minutes").bind Json.asNumber = none →
      (geminiParseOutput r).prep_time_minutes = 0 ∧ (composioParseOutput r).prep_time_minutes = 0)
    ∧ (∀ r, (lookupJ r "cook_time_minutes").bind Json.asNumber = none →
      (geminiParseOutput r).cook_time_minutes = 0 ∧ (composioParseOutput r).cook_time_minutes = 0)
    ∧ (∀ r, (lookupJ r "allergens").bind Json.asArr = none →
      (geminiParseOutput r).allergens = [] ∧ (composioParseOutput r).allergens = [])
    ∧ (∀ r, (lookupJ r "calories_kcal").bind Json.asNumber = none →
      (geminiParseOutput r).calories_kcal = 0 ∧ (composioParseOutput r).calories_kcal = 0)
    ∧ (∀ r, (lookupJ r "difficulty").bind Json.asNumber = none →
      (geminiParseOutput r).difficulty = 1 ∧ (composioParseOutput r).difficulty = 1)
    ∧ (∀ r, (lookupJ r "cuisine").bind Json.asString = none →
      (geminiParseOutput r).cuisine = "OTHER" ∧ (composioParseOutput r).cuisine = "OTHER")
    ∧ (∀ r, (lookupJ r "accompanying_recipes").bind Json.asArr = none →
      (geminiParseOutput r).accompanying_recipes = []
        ∧ (composioParseOutput r).accompanying_recipes = [])
    ∧ (∀ r, (lookupJ r "highlights").bind Json.asArr = none →
      (geminiParseOutput r).highlights = some [])
    ∧ (∀ r, ∃ xs, (geminiParseOutput r).highlights = some xs)
    ∧ (∀ r, (composioParseOutput r).highlights = none) := by
  refine ⟨?_, ?_, ?_, ?_, ?_, ?_, ?_, ?_, ?_, ?_, ?_, ?_, ?_⟩ <;>
    intro r <;>
    first
      | (intro h; constructor <;> simp [geminiParseOutput, composioParseOutput, h])
      | (intro h; simp [geminiParseOutput, h])
      | exact ⟨_, rfl⟩
      | rfl

-- ── C5 ────────────────────────────────────────────────────────

/-- An environment in which everything succeeds but the normalized output
has an empty `ingredients` sequence. -/
def envEmptyIngredients : ExtractEnv :=
  ⟨none, .ok sampleDetails, .ok "t", .ok emptyOutput, [], true, .ok ()⟩

/-- C5 counterexample: on the streaming endpoint an extraction whose
normalized output has empty `ingredients` is still cached and still reported
with a terminal `complete` event — the route has no empty-ingredients
guard. -/
theorem c5_stream_caches_empty_ingredients_cex :
    emptyOutput.ingredients = []
    ∧ (extractStreamRoute envEmptyIngredients).cacheWrite =
        some (buildResult sampleDetails emptyOutput)
    ∧ (extractStreamRoute envEmptyIngredients).events =
        [.phase "fetching", .phase "extracting",
         .completeResult (buildResult sampleDetails emptyOutput)] := by
  exact ⟨rfl, rfl, rfl⟩

/-- C5 amended: only the non-streaming `GET /:videoId/extract` endpoint
treats an empty `ingredients` sequence as a failure — it responds 400
(`NoIngredientsExtracted`), writes nothing to the cache and sends no success
body; the streaming endpoint has no such guard and both caches the empty
result and reports it `complete`. -/
theorem c5_empty_ingredients_guard (env : ExtractEnv)
    (d : VideoDetails) (t : String) (output : ExtractionOutput)
    (h0 : env.cached = none) (h1 : env.detailsResult = .ok d)
    (h2 : env.transcriptResult = .ok t) (h3 : env.extractionResult = .ok output)
    (h4 : output.ingredients.length = 0) (h5 : env.hasStream = true) :
    (extractRoute env).response =
      ⟨400, .detailBody "No ingredients could be extracted from this video."⟩
    ∧ (extractRoute env).cacheWrite = none
    ∧ (extractStreamRoute env).cacheWrite = some (buildResult d output)
    ∧ (extractStreamRoute env).events =
        [.phase "fetching", .phase "extracting"] ++
          forwardedEvents env.streamEvents ++
          [.completeResult (buildResult d output)] := by
  refine ⟨?_, ?_, ?_, ?_⟩ <;>
    simp [extractRoute, extractStreamRoute, h0, h1, h2, h3, h4, h5]

/-- Witness for C5 at the concrete environment of the counterexample. -/
theorem c5_empty_ingredients_guard_witness :
    (extractRoute envEmptyIngredients).response =
      ⟨400, .detailBody "No ingredients could be extracted from this video."⟩
    ∧ (extractRoute envEmptyIngredients).cacheWrite = none
    ∧ (extractStreamRoute envEmptyIngredients).cacheWrite =
        some (buildResult sampleDetails emptyOutput)
    ∧ (extractStreamRoute envEmptyIngredients).events =
        [.phase "fetching", .phase "extracting"] ++
          forwardedEvents envEmptyIngredients.streamEvents ++
          [.completeResult (buildResult sampleDetails emptyOutput)] :=
  c5_empty_ingredients_guard envEmptyIngredients sampleDetails "t" emptyOutput
    rfl rfl rfl rfl rfl rfl

-- ── C9 ────────────────────────────────────────────────────────

/-- C9: on a successful extraction a failure of the fire-and-forget cache
write is fully absorbed: it only produces a log line, and both endpoints
still deliver exactly the successful response/event sequence they produce
when the write succeeds. -/
theorem c9_cache_write_failure_absorbed (env : ExtractEnv)
    (d : VideoDetails) (t : String) (output : ExtractionOutput) (e : String)
    (h0 : env.cached = none) (h1 : env.detailsResult = .ok d)
    (h2 : env.transcriptResult = .ok t) (h3 : env.extractionResult = .ok output)
    (h4 : output.ingredients.length ≠ 0) (h5 : env.hasStream = true) :
    (extractRoute { env with cacheWriteResult := .error e }).response =
      ⟨200, .resultBody (buildResult d output)⟩
    ∧ (extractRoute { env with cacheWriteResult := .error e }).logs =
        ["Failed to cache recipe: " ++ e]
    ∧ (extractRoute { env with cacheWriteResult := .error e }).response =
        (extractRoute { env with cacheWriteResult := .ok () }).response
    ∧ (extractStreamRoute { env with cacheWriteResult := .error e }).events =
        [.phase "fetching", .phase "extracting"] ++
          forwardedEvents env.streamEvents ++
          [.completeResult (buildResult d output)]
    ∧ (extractStreamRoute { env with cacheWriteResult := .error e }).events =
        (extractStreamRoute { env with cacheWriteResult := .ok () }).events
    ∧ (extractStreamRoute { env with cacheWriteResult := .error e }).logs =
        ["Failed to cache recipe: " ++ e] := by
  refine ⟨?_, ?_, ?_, ?_, ?_, ?_⟩ <;>
    simp [extractRoute, extractStreamRoute, cacheWriteLogs,
      h0, h1, h2, h3, h4, h5]

/-- An environment in which everything succeeds and one ingredient exists. -/
def envSuccess : ExtractEnv :=
  ⟨none, .ok sampleDetails, .ok "t", .ok sampleOutput, [], true, .ok ()⟩

/-- Witness for C9 at a concrete environment whose cache write fails. -/
theorem c9_cache_write_failure_absorbed_witness :
    (extractRoute { envSuccess with cacheWriteResult := .error "boom" }).response =
      ⟨200, .resultBody (buildResult sampleDetails sampleOutput)⟩
    ∧ (extractRoute { envSuccess with cacheWriteResult := .error "boom" }).logs =
        ["Failed to cache recipe: " ++ "boom"]
    ∧ (extractRoute { envSuccess with cacheWriteResult := .error "boom" }).response =
        (extractRoute { envSuccess with cacheWriteResult := .ok () }).response
    ∧ (extractStreamRoute { envSuccess with cacheWriteResult := .error "boom" }).events =
        [.phase "fetching", .phase "extracting"] ++
          forwardedEvents envSuccess.streamEvents ++
          [.completeResult (buildResult sampleDetails sampleOutput)]
    ∧ (extractStreamRoute { envSuccess with cacheWriteResult := .error "boom" }).events =
        (extractStreamRoute { envSuccess with cacheWriteResult := .ok () }).events
    ∧ (extractStreamRoute { envSuccess with cacheWriteResult := .error "boom" }).logs =
        ["Failed to cache recipe: " ++ "boom"] :=
  c9_cache_write_failure_absorbed envSuccess sampleDetails "t" sampleOutput "boom"
    rfl rfl rfl rfl (by simp [sampleOutput]) rfl

-- ── C7 ────────────────────────────────────────────────────────

/-- C7: a transcript-retrieval failure is classified exactly once by
substring inspection of its message and surfaced as 404/`NoCaptions` when
the message indicates a missing transcript, 429 when it indicates rate
limiting, and a generic 500 otherwise; in every case neither endpoint
invokes the generation backend or writes to the cache, and the streaming
endpoint sends exactly one `error` event. -/
theorem c7_transcript_failure_classified (env : ExtractEnv)
    (d : VideoDetails) (msg : String)
    (h0 : env.cached = none) (h1 : env.detailsResult = .ok d)
    (h2 : env.transcriptResult = .error msg) :
    ((extractRoute env).calledExtractor = false
      ∧ (extractRoute env).cacheWrite = none
      ∧ (extractStreamRoute env).calledExtractor = false
      ∧ (extractStreamRoute env).cacheWrite = none)
    ∧ (includes msg "No transcript" = true →
        (extractRoute env).response =
          ⟨404, .detailBody "This video does not have captions available."⟩
        ∧ (extractStreamRoute env).events =
          [.phase "fetching", .errorEvent "This video does not have captions available."])
    ∧ (includes msg "No transcript" = false → includes msg "Rate limit" = true →
        (extractRoute env).response =
          ⟨429, .detailBody "Rate limit exceeded. Please try again later."⟩
        ∧ (extractStreamRoute env).events =
          [.phase "fetching", .errorEvent "Rate limit exceeded. Please try again later."])
    ∧ (includes msg "No transcript" = false → includes msg "Rate limit" = false →
        (extractRoute env).response =
          ⟨500, .detailBody ("Failed to fetch transcript: " ++ msg)⟩
        ∧ (extractStreamRoute env).events =
          [.phase "fetching", .errorEvent ("Failed to fetch transcript: " ++ msg)]) := by
  refine ⟨?_, ?_, ?_, ?_⟩
  · cases hnt : includes msg "No transcript" <;>
      cases hrl : includes msg "Rate limit" <;>
        simp [extractRoute, extractStreamRoute, h0, h1, h2, hnt, hrl]
  · intro hnt
    constructor <;> simp [extractRoute, extractStreamRoute, h0, h1, h2, hnt]
  · intro hnt hrl
    constructor <;> simp [extractRoute, extractStreamRoute, h0, h1, h2, hnt, hrl]
  · intro hnt hrl
    constructor <;> simp [extractRoute, extractStreamRoute, h0, h1, h2, hnt, hrl]

/-- An environment whose transcript fetch fails with the message the
transcript source actually throws when captions are missing. -/
def envNoTranscript : ExtractEnv :=
  ⟨none, .ok sampleDetails, .error "No transcript available for this video",
   .ok sampleOutput, [], true, .ok ()⟩

/-- Witness for C7 at the concrete no-captions failure message. -/
theorem c7_transcript_failure_classified_witness :
    ((extractRoute envNoTranscript).calledExtractor = false
      ∧ (extractRoute envNoTranscript).cacheWrite = none
      ∧ (extractStreamRoute envNoTranscript).calledExtractor = false
      ∧ (extractStreamRoute envNoTranscript).cacheWrite = none)
    ∧ (includes "No transcript available for this video" "No transcript" = true →
        (extractRoute envNoTranscript).response =
          ⟨404, .detailBody "This video does not have captions available."⟩
        ∧ (extractStreamRoute envNoTranscript).events =
          [.phase "fetching", .errorEvent "This video does not have captions available."])
    ∧ (includes "No transcript available for this video" "No transcript" = false →
        includes "No transcript available for this video" "Rate limit" = true →
        (extractRoute envNoTranscript).response =
          ⟨429, .detailBody "Rate limit exceeded. Please try again later."⟩
        ∧ (extractStreamRoute envNoTranscript).events =
          [.phase "fetching", .errorEvent "Rate limit exceeded. Please try again later."])
    ∧ (includes "No transcript available for this video" "No transcript" = false →
        includes "No transcript available for this video" "Rate limit" = false →
        (extractRoute envNoTranscript).response =
          ⟨500, .detailBody ("Failed to fetch transcript: " ++
            "No transcript available for this video")⟩
        ∧ (extractStreamRoute envNoTranscript).events =
          [.phase "fetching", .errorEvent ("Failed to fetch transcript: " ++
            "No transcript available for this video")]) :=
  c7_transcript_failure_classified envNoTranscript sampleDetails
    "No transcript available for this video" rfl rfl rfl

-- ── C2 ────────────────────────────────────────────────────────

/-- A buffer whose `servings` digit run extends to the very end of the
buffer (no terminating non-digit character has arrived yet). -/
def bufServingsAtEnd : String := "\"servings\": 4"

/-- C2 counterexample: the digit run of `servings` reaches the end of the
buffer, yet `processChunk` reports the field complete in this very
invocation — the pattern `"servings"\s*:\s*(\d+)` needs no terminator. -/
theorem c2_number_reported_at_buffer_end_cex :
    bufServingsAtEnd.data.getLast? = some '4'
    ∧ (processChunk bufServingsAtEnd initialState).2 =
        [StreamEvent.metadata "servings" (Json.num 4)] := by
  exact ⟨rfl, rfl⟩

lemma processScalars_emits_num (ps : List ScalarPattern) (b : List Char) :
    ∀ (st : IncrementalState) (key : String) (ds : List Char),
      (⟨key, ScalarKind.numKind⟩ : ScalarPattern) ∈ ps →
      (ps.map ScalarPattern.key).Nodup →
      hasKey st.emittedScalars key = false →
      firstMatch (numPatternAt key.data) b = some ds →
      StreamEvent.metadata key (Json.num (digitsToNat ds)) ∈ (processScalars ps b st).2 := by
  induction ps with
  | nil =>
    intro st key ds hp
    cases hp
  | cons q ps ih =>
    intro st key ds hp hndup hnot h
    rcases List.mem_cons.mp hp with heq | hp'
    · cases heq.symm
      have he : execScalar ⟨key, ScalarKind.numKind⟩ b =
          some (Json.num (digitsToNat ds)) := by
        simp [execScalar, h]
      simp [processScalars, hnot, he]
    · have hqk : (q.key == key) = false := by
        rcases hq : q.key == key with _ | _
        · rfl
        · exfalso
          have hkmem : q.key ∈ ps.map ScalarPattern.key := by
            rw [beq_iff_eq.mp hq]
            exact List.mem_map.mpr ⟨_, hp', rfl⟩
          exact (List.nodup_cons.mp hndup).1 hkmem
      have hndup' := (List.nodup_cons.mp hndup).2
      simp only [processScalars]
      split
      · exact ih st key ds hp' hndup' hnot h
      · cases hm : execScalar q b with
        | some v =>
          have hnot' : hasKey (q.key :: st.emittedScalars) key = false := by
            simp [hasKey, hqk, hnot]
          exact List.mem_cons_of_mem _ (ih _ key ds hp' hndup' hnot' h)
        | none => exact ih st key ds hp' hndup' hnot h

/-- C2 amended: every numeric scalar field (`servings`, `prep_time_minutes`,
`cook_time_minutes`, `calories_kcal`, `difficulty`) is reported, in any
invocation and from any state in which the field is still unreported, as
soon as the buffer contains the field's key, a colon and at least one digit;
the captured value is the maximal digit run at that point, with no
requirement that a non-digit terminator follow — in particular a digit run
that extends to the end of the buffer is reported (possibly truncated) in
that invocation. -/
theorem c2_number_reported_without_terminator (buffer : String)
    (st : IncrementalState) (key : String) (ds : List Char)
    (hkey : (⟨key, ScalarKind.numKind⟩ : ScalarPattern) ∈ SCALAR_PATTERNS)
    (hnot : hasKey st.emittedScalars key = false)
    (h : firstMatch (numPatternAt key.data) buffer.data = some ds) :
    StreamEvent.metadata key (Json.num (digitsToNat ds)) ∈ (processChunk buffer st).2 := by
  have hndup : (SCALAR_PATTERNS.map ScalarPattern.key).Nodup := by decide
  have hm := processScalars_emits_num SCALAR_PATTERNS buffer.data st key ds
    hkey hndup hnot h
  simp only [processChunk]
  exact List.mem_append_left _ (List.mem_append_left _ hm)

/-- Witness for C2: the field `difficulty`, from a state in which two other
scalars were already reported, on a buffer whose digit run reaches the
buffer's end. -/
theorem c2_number_reported_without_terminator_witness :
    StreamEvent.metadata "difficulty" (Json.num (digitsToNat ['3'])) ∈
      (processChunk "\"difficulty\": 3"
        ⟨["servings", "cuisine"], 0, 0⟩).2 :=
  c2_number_reported_without_terminator "\"difficulty\": 3"
    ⟨["servings", "cuisine"], 0, 0⟩ "difficulty" ['3']
    (by decide) rfl rfl

-- ── C3 ────────────────────────────────────────────────────────

/-- An instructions buffer whose single string value contains an escaped
quote (`"use a 5\" pan"`). -/
def bufEscapedQuote : String := "\"instructions\": [\"use a 5\\\" pan\"]"

/-- C3: the backslash sets a one-shot `escaped` flag that suppresses
string-delimiter and structural interpretation of exactly the next
character: from any non-escaped scan state, consuming a backslash and then
any character leaves the string mode, the brace depth, the item-start mark
and the completed items exactly as they were (so an escaped quote never
closes the enclosing string and never completes an element); concretely,
the buffer `"instructions": ["use a 5\" pan"]` yields the single complete
element `use a 5" pan`, not a prematurely closed fragment. -/
theorem c3_escape_one_shot :
    (∀ (buffer rest : List Char) (i : Nat) (depth : Int) (inString : Bool)
       (itemStart : Option Nat) (items : List Json) (c : Char),
       scanArrayLoop buffer ('\\' :: c :: rest) i depth inString false itemStart items
         = scanArrayLoop buffer rest (i + 1 + 1) depth inString false itemStart items)
    ∧ extractCompletedArrayItems bufEscapedQuote.data "instructions" =
        [Json.str "use a 5\" pan"] := by
  constructor
  · intro buffer rest i depth inString itemStart items c
    simp [scanArrayLoop]
  · rfl

-- ── C4 ────────────────────────────────────────────────────────

/-- A buffer in which the `instructions` array is already closed and a later
`highlights` array follows in the same document. -/
def bufClosedThenLater : String :=
  "\"instructions\": [\"a\"], \"highlights\": [\"b\", \"c\"]"

/-- C4 counterexample: with the `instructions` array closed after its single
element `"a"`, `extractCompletedArrayItems` nevertheless reports `"c"` — a
string that lies after the array's closing bracket, inside the later
`highlights` array — as a second element of `instructions`: the string
fallback scans the whole remaining buffer past the bracket. -/
theorem c4_reports_text_after_bracket_cex :
    bufClosedThenLater = "\"instructions\": [\"a\"]" ++ ", \"highlights\": [\"b\", \"c\"]"
    ∧ extractCompletedArrayItems bufClosedThenLater.data "instructions" =
        [Json.str "a", Json.str "c"] := by
  exact ⟨rfl, rfl⟩

/-- C4 amended: the character-by-character object-element scan does stop at
the array's closing bracket — reaching `]` at depth zero outside a string
ends the walk with exactly the items found so far, whatever follows — but
when that walk finds no object-shaped element, the string-item fallback
scans the entire remaining buffer from the array start, past the closing
bracket, and can report strings of later arrays as elements of this one. -/
theorem c4_object_scan_stops_at_bracket
    (buffer rest : List Char) (i : Nat) (itemStart : Option Nat) (items : List Json) :
    scanArrayLoop buffer (']' :: rest) i 0 false false itemStart items = items := by
  simp [scanArrayLoop]

-- ── C1: helper definitions and lemmas ─────────────────────────

/-- The index of an ingredient event (none for every other event). -/
def ingredientIdx : StreamEvent → Option Nat
  | .ingredient i _ => some i
  | _ => none

/-- The index of an instruction event (none for every other event). -/
def instructionIdx : StreamEvent → Option Nat
  | .instruction i _ => some i
  | _ => none

/-- Whether an event is the metadata event of field `k`. -/
def isMetaFor (k : String) : StreamEvent → Bool
  | .metadata k2 _ => k2 == k
  | _ => false

lemma filterMap_map_none {α β γ : Type} (l : List α) (f : α → β) (g : β → Option γ)
    (h : ∀ a, g (f a) = none) : (l.map f).filterMap g = [] := by
  induction l with
  | nil => rfl
  | cons a t ih => simp [List.filterMap_cons, h, ih]

lemma filterMap_map_some {α β : Type} (l : List α) (f : α → β) (g : β → Option α)
    (h : ∀ a, g (f a) = some a) : (l.map f).filterMap g = l := by
  induction l with
  | nil => rfl
  | cons a t ih => simp [List.filterMap_cons, h, ih]

lemma filterMap_of_meta_events (evs : List StreamEvent) (g : StreamEvent → Option Nat)
    (hg : ∀ k v, g (StreamEvent.metadata k v) = none)
    (h : ∀ ev ∈ evs, ∃ k v, ev = StreamEvent.metadata k v) : evs.filterMap g = [] := by
  induction evs with
  | nil => rfl
  | cons e t ih =>
    obtain ⟨k, v, rfl⟩ := h e (List.mem_cons_self e t)
    simp [List.filterMap_cons, hg,
      ih (fun ev hev => h ev (List.mem_cons_of_mem _ hev))]

lemma range'_glue (a b c : Nat) (h1 : a ≤ b) (h2 : b ≤ c) :
    List.range' a (b - a) ++ List.range' b (c - b) = List.range' a (c - a) := by
  have h := List.range'_append a (b - a) (c - b) 1
  rw [one_mul] at h
  have e1 : a + (b - a) = b := by omega
  have e2 : c - b + (b - a) = c - a := by omega
  rw [e1, e2] at h
  exact h

lemma processScalars_counts (ps : List ScalarPattern) (b : List Char)
    (st : IncrementalState) :
    (processScalars ps b st).1.emittedIngredientCount = st.emittedIngredientCount
    ∧ (processScalars ps b st).1.emittedInstructionCount = st.emittedInstructionCount := by
  induction ps generalizing st with
  | nil => simp [processScalars]
  | cons p ps ih =>
    simp only [processScalars]
    split
    · exact ih st
    · cases hm : execScalar p b with
      | some v => simpa using ih _
      | none => exact ih st

lemma processScalars_events_meta (ps : List ScalarPattern) (b : List Char)
    (st : IncrementalState) :
    ∀ ev ∈ (processScalars ps b st).2, ∃ k v, ev = StreamEvent.metadata k v := by
  induction ps generalizing st with
  | nil => simp [processScalars]
  | cons p ps ih =>
    simp only [processScalars]
    split
    · exact ih st
    · cases hm : execScalar p b with
      | some v =>
        intro ev hev
        simp only [List.mem_cons] at hev
        rcases hev with rfl | hev
        · exact ⟨p.key, v, rfl⟩
        · exact ih _ ev hev
      | none => exact ih st

lemma processScalars_meta_count (k : String) (ps : List ScalarPattern)
    (b : List Char) (st : IncrementalState) :
    ((processScalars ps b st).2.filter (isMetaFor k)).length
      + (if hasKey st.emittedScalars k then 1 else 0)
      ≤ (if hasKey (processScalars ps b st).1.emittedScalars k then 1 else 0) := by
  induction ps generalizing st with
  | nil => simp [processScalars]
  | cons p ps ih =>
    simp only [processScalars]
    split
    · next hin =>
      have h := ih st
      exact h
    · next hout =>
      cases hm : execScalar p b with
      | some v =>
        have h := ih { st with emittedScalars := p.key :: st.emittedScalars }
        have hfalse : hasKey st.emittedScalars p.key = false := by
          revert hout; cases hasKey st.emittedScalars p.key <;> simp
        by_cases hpk : p.key = k
        · subst hpk
          simp only [hasKey, beq_self_eq_true, Bool.true_or, if_true] at h
          simp only [List.filter_cons, isMetaFor, beq_self_eq_true, if_true,
            List.length_cons, hfalse, Bool.false_eq_true, if_false]
          split at h <;> split <;> omega
        · have hbk : (p.key == k) = false := by simp [hpk]
          simp only [hasKey, hbk, Bool.false_or] at h
          simp only [List.filter_cons, isMetaFor, hbk, Bool.false_eq_true,
            if_false]
          exact h
      | none => exact ih st

lemma filter_meta_emitNew (k : String) (mk : Nat → Json → StreamEvent)
    (hmk : ∀ i v, isMetaFor k (mk i v) = false) (c : Nat) (items : List Json) :
    (emitNew mk c items).filter (isMetaFor k) = [] := by
  unfold emitNew
  induction List.range' c (items.length - c) with
  | nil => rfl
  | cons i t ih => simp [hmk, ih]

lemma processChunk_meta_count (k : String) (b : String) (st : IncrementalState) :
    ((processChunk b st).2.filter (isMetaFor k)).length
      + (if hasKey st.emittedScalars k then 1 else 0)
      ≤ (if hasKey (processChunk b st).1.emittedScalars k then 1 else 0) := by
  have h := processScalars_meta_count k SCALAR_PATTERNS b.data st
  simp only [processChunk, List.filter_append, List.length_append,
    filter_meta_emitNew k StreamEvent.ingredient (fun i v => rfl),
    filter_meta_emitNew k StreamEvent.instruction (fun i v => rfl),
    List.length_nil]
  simpa using h

lemma runScanner_meta_count (k : String) (bufs : List String) (st : IncrementalState) :
    ((runScanner bufs st).2.filter (isMetaFor k)).length
      + (if hasKey st.emittedScalars k then 1 else 0) ≤ 1 := by
  induction bufs generalizing st with
  | nil =>
    simp only [runScanner, List.filter_nil, List.length_nil, Nat.zero_add]
    split <;> omega
  | cons b bs ih =>
    have h1 := processChunk_meta_count k b st
    have h2 := ih (processChunk b st).1
    simp only [runScanner, List.filter_append, List.length_append]
    split_ifs at h1 h2 ⊢ <;> omega

lemma filterMap_emitNew_ing (c : Nat) (items : List Json) :
    (emitNew StreamEvent.ingredient c items).filterMap ingredientIdx =
      List.range' c (items.length - c) :=
  filterMap_map_some _ _ _ (fun i => rfl)

lemma filterMap_emitNew_ins (c : Nat) (items : List Json) :
    (emitNew StreamEvent.instruction c items).filterMap instructionIdx =
      List.range' c (items.length - c) :=
  filterMap_map_some _ _ _ (fun i => rfl)

lemma filterMap_ing_of_ins (c : Nat) (items : List Json) :
    (emitNew StreamEvent.instruction c items).filterMap ingredientIdx = [] :=
  filterMap_map_none _ _ _ (fun i => rfl)

lemma filterMap_ins_of_ing (c : Nat) (items : List Json) :
    (emitNew StreamEvent.ingredient c items).filterMap instructionIdx = [] :=
  filterMap_map_none _ _ _ (fun i => rfl)

lemma processChunk_ing (b : String) (st : IncrementalState) :
    st.emittedIngredientCount ≤ (processChunk b st).1.emittedIngredientCount
    ∧ (processChunk b st).2.filterMap ingredientIdx =
        List.range' st.emittedIngredientCount
          ((processChunk b st).1.emittedIngredientCount - st.emittedIngredientCount) := by
  have hc := (processScalars_counts SCALAR_PATTERNS b.data st).1
  have hmeta := processScalars_events_meta SCALAR_PATTERNS b.data st
  constructor
  · simp only [processChunk, hc]
    exact Nat.le_max_left _ _
  · simp only [processChunk, List.filterMap_append,
      filterMap_of_meta_events _ ingredientIdx (fun k v => rfl) hmeta,
      filterMap_emitNew_ing, filterMap_ing_of_ins, List.nil_append,
      List.append_nil, hc]
    congr 1
    omega

lemma processChunk_ins (b : String) (st : IncrementalState) :
    st.emittedInstructionCount ≤ (processChunk b st).1.emittedInstructionCount
    ∧ (processChunk b st).2.filterMap instructionIdx =
        List.range' st.emittedInstructionCount
          ((processChunk b st).1.emittedInstructionCount - st.emittedInstructionCount) := by
  have hc := (processScalars_counts SCALAR_PATTERNS b.data st).2
  have hmeta := processScalars_events_meta SCALAR_PATTERNS b.data st
  constructor
  · simp only [processChunk, hc]
    exact Nat.le_max_left _ _
  · simp only [processChunk, List.filterMap_append,
      filterMap_of_meta_events _ instructionIdx (fun k v => rfl) hmeta,
      filterMap_emitNew_ins, filterMap_ins_of_ing, List.nil_append,
      List.append_nil, hc]
    congr 1
    omega

lemma runScanner_ing (bufs : List String) (st : IncrementalState) :
    st.emittedIngredientCount ≤ (runScanner bufs st).1.emittedIngredientCount
    ∧ (runScanner bufs st).2.filterMap ingredientIdx =
        List.range' st.emittedIngredientCount
          ((runScanner bufs st).1.emittedIngredientCount - st.emittedIngredientCount) := by
  induction bufs generalizing st with
  | nil => simp [runScanner]
  | cons b bs ih =>
    obtain ⟨hle1, heq1⟩ := processChunk_ing b st
    obtain ⟨hle2, heq2⟩ := ih (processChunk b st).1
    constructor
    · simp only [runScanner]
      exact le_trans hle1 hle2
    · simp only [runScanner, List.filterMap_append, heq1, heq2]
      exact range'_glue _ _ _ hle1 hle2

lemma runScanner_ins (bufs : List String) (st : IncrementalState) :
    st.emittedInstructionCount ≤ (runScanner bufs st).1.emittedInstructionCount
    ∧ (runScanner bufs st).2.filterMap instructionIdx =
        List.range' st.emittedInstructionCount
          ((runScanner bufs st).1.emittedInstructionCount - st.emittedInstructionCount) := by
  induction bufs generalizing st with
  | nil => simp [runScanner]
  | cons b bs ih =>
    obtain ⟨hle1, heq1⟩ := processChunk_ins b st
    obtain ⟨hle2, heq2⟩ := ih (processChunk b st).1
    constructor
    · simp only [runScanner]
      exact le_trans hle1 hle2
    · simp only [runScanner, List.filterMap_append, heq1, heq2]
      exact range'_glue _ _ _ hle1 hle2

-- ── C1 ────────────────────────────────────────────────────────

/-- C1: for any sequence of `processChunk` invocations on a monotonically
growing buffer threading one `ScanState` from the initial state, at most one
metadata event is emitted for the scalar field `k`, and the ingredient and
instruction events carry pairwise strictly increasing indices in emission
order — so no event is produced twice for the same field name or the same
(array, index) pair, wherever the fragment boundaries fall. -/
theorem c1_scanner_exactly_once (bufs : List String) (k : String)
    (hgrow : List.Chain' (fun a b : String => ∃ t, b = a ++ t) bufs) :
    ((runScanner bufs initialState).2.filter (isMetaFor k)).length ≤ 1
    ∧ ((runScanner bufs initialState).2.filterMap ingredientIdx).Pairwise (· < ·)
    ∧ ((runScanner bufs initialState).2.filterMap instructionIdx).Pairwise (· < ·) := by
  refine ⟨?_, ?_, ?_⟩
  · have h := runScanner_meta_count k bufs initialState
    simpa [initialState, hasKey] using h
  · rw [(runScanner_ing bufs initialState).2]
    exact List.pairwise_lt_range' _ _
  · rw [(runScanner_ins bufs initialState).2]
    exact List.pairwise_lt_range' _ _

/-- Witness for C1: a concrete two-fragment growing buffer sequence. -/
theorem c1_scanner_exactly_once_witness :
    ((runScanner ["\"serv", "\"servings\": 4"] initialState).2.filter
        (isMetaFor "servings")).length ≤ 1
    ∧ ((runScanner ["\"serv", "\"servings\": 4"] initialState).2.filterMap
        ingredientIdx).Pairwise (· < ·)
    ∧ ((runScanner ["\"serv", "\"servings\": 4"] initialState).2.filterMap
        instructionIdx).Pairwise (· < ·) :=
  c1_scanner_exactly_once ["\"serv", "\"servings\": 4"] "servings"
    (by exact List.chain'_cons.mpr ⟨⟨"ings\": 4", rfl⟩, List.chain'_singleton _⟩)
